import Mathlib

/-!
Verification of the chiquito factorial example (`src/examples/factorial.py`)
against its specification.

The example declares three forward signals `a`, `b`, `n`, three step types
(`FactorialFirstStep`, `FactorialStep`, `Padding`) with row and transition
constraints, and a `trace` routine that builds a 10-row witness.  The
step-type constraint declarations and witness-generation (`wg`) routines are
translated directly from the source file; the generic engine pieces that the
source imports from the chiquito library (field reduction, the trace builder
with `add` / `needs_padding`, exposure resolution, constraint evaluation)
are modelled from the specification, as marked on each definition.
-/

namespace Chiquito

/-- Modelled from the spec: the field characteristic.  The spec treats the
field as opaque; the chiquito backend uses the BN254 scalar field, whose
order is fixed here.  All concrete values in the factorial example are far
below it, so the claims do not depend on the particular modulus. -/
def P : Nat := 21888242871839275222246405745257275088548364400416034343698204186575808495617

/-- Modelled from the spec: FieldValue construction from an integer reduces
modulo the field characteristic (source: F from chiquito.util). -/
def F (x : Nat) : Nat := x % P

/-- The signals of the factorial circuit: forward signals a, b, n declared in
Factorial.setup, and the internal signal c declared by FactorialFirstStep and
FactorialStep. -/
inductive Sig where
  | a
  | b
  | n
  | c
  deriving DecidableEq

/-- The three step types registered by Factorial.setup. -/
inductive StepTy where
  | factorial_first_step
  | factorial_step
  | padding
  deriving DecidableEq

/-- Constraint expressions: signal references, next-row references (legal
only in transition constraints), integer literals, addition and
multiplication, as in the chiquito expression combinators. -/
inductive Expr where
  | const : Nat → Expr
  | var : Sig → Expr
  | next : Sig → Expr
  | add : Expr → Expr → Expr
  | mul : Expr → Expr → Expr
  deriving DecidableEq

/-- A constraint eq(lhs, rhs): it holds when both sides evaluate to the same
field element. -/
structure Constraint where
  lhs : Expr
  rhs : Expr
  deriving DecidableEq

/-- Row constraints of each step type, exactly as declared in each setup:
FactorialFirstStep has eq(a, 0) and eq(c, 1); FactorialStep has
eq(a * b, c); Padding declares none. -/
def rowConstraints : StepTy → List Constraint
  | .factorial_first_step => [⟨.var .a, .const 0⟩, ⟨.var .c, .const 1⟩]
  | .factorial_step => [⟨.mul (.var .a) (.var .b), .var .c⟩]
  | .padding => []

/-- Transition constraints of each step type, exactly as declared in each
setup: FactorialFirstStep has eq(c, b.next), eq(a + 1, a.next),
eq(n, n.next); FactorialStep has eq(c, b.next), eq(n, n.next); Padding has
eq(b, b.next), eq(n, n.next). -/
def transitionConstraints : StepTy → List Constraint
  | .factorial_first_step =>
      [⟨.var .c, .next .b⟩, ⟨.add (.var .a) (.const 1), .next .a⟩, ⟨.var .n, .next .n⟩]
  | .factorial_step => [⟨.var .c, .next .b⟩, ⟨.var .n, .next .n⟩]
  | .padding => [⟨.var .b, .next .b⟩, ⟨.var .n, .next .n⟩]

/-- A trace row: the step type that produced it and the values assigned to
the forward signals a, b, n and the internal signal c (none when the
producing step type did not assign it). -/
structure Row where
  step : StepTy
  a : Option Nat
  b : Option Nat
  n : Option Nat
  c : Option Nat
  deriving DecidableEq

/-- Padding.wg: assigns a, b, n from the three arguments. -/
def Padding.wg (a_value b_value n_value : Nat) : Row :=
  { step := .padding, a := some (F a_value), b := some (F b_value),
    n := some (F n_value), c := none }

/-- FactorialFirstStep.wg: assigns a from the first argument, b := 1,
c := 1, n from the second argument. -/
def FactorialFirstStep.wg (a_value n_value : Nat) : Row :=
  { step := .factorial_first_step, a := some (F a_value), b := some (F 1),
    n := some (F n_value), c := some (F 1) }

/-- FactorialStep.wg: assigns a, b, n from the arguments and
c := F(a_value * b_value). -/
def FactorialStep.wg (a_value b_value n_value : Nat) : Row :=
  { step := .factorial_step, a := some (F a_value), b := some (F b_value),
    n := some (F n_value), c := some (F (a_value * b_value)) }

/-- Which step types declare the internal signal c in their setup. -/
def declaresC : StepTy → Bool
  | .factorial_first_step => true
  | .factorial_step => true
  | .padding => false

/-- Modelled from the spec: wg must assign a FieldValue to every forward
signal the circuit declares (a, b, n) and to every internal signal the step
type declared (c when declared); otherwise the builder fails with
IncompleteRow. -/
def completeRow (r : Row) : Bool :=
  r.a.isSome && r.b.isSome && r.n.isSome && (!declaresC r.step || r.c.isSome)

/-- NUMBER_STEPS = 10, from the source. -/
def NUMBER_STEPS : Nat := 10

/-- Modelled from the spec: the failures of the trace builder relevant to
this circuit. -/
inductive TraceError where
  | TraceOverflow
  | IncompleteRow
  deriving DecidableEq

/-- Modelled from the spec: add(stepType, args) appends the row produced by
the step type's wg; it fails with TraceOverflow on the call that would
exceed NUMBER_STEPS rows, and with IncompleteRow when the row is missing a
required signal. -/
def add (t : List Row) (r : Row) : Except TraceError (List Row) :=
  if NUMBER_STEPS ≤ t.length then .error .TraceOverflow
  else if completeRow r then .ok (t ++ [r]) else .error .IncompleteRow

/-- Modelled from the spec: needs_padding() is true while the trace has
fewer than NUMBER_STEPS rows. -/
def needs_padding (t : List Row) : Bool := t.length < NUMBER_STEPS

/-- The designer loop of Factorial.trace: for i in range(2, n) it adds a
FactorialStep row with the current (a, b, n) and then updates b := b * a,
a := a + 1.  The first argument counts the remaining iterations (n - 2 at
the top call); the final (a, b) are returned for the padding loop. -/
def factLoop : Nat → Nat → Nat → Nat → List Row → Except TraceError (List Row × Nat × Nat)
  | 0, a, b, _, t => .ok (t, a, b)
  | k + 1, a, b, n, t =>
      match add t (FactorialStep.wg a b n) with
      | .ok t2 => factLoop k (a + 1) (b * a) n t2
      | .error e => .error e

/-- The padding loop of Factorial.trace: while needs_padding(), add a
Padding row with the loop-final (a, b, n).  The fuel argument bounds the
iterations; NUMBER_STEPS fuel always suffices since add caps the trace at
NUMBER_STEPS rows. -/
def padLoop : Nat → Nat → Nat → Nat → List Row → Except TraceError (List Row)
  | 0, _, _, _, t => .ok t
  | fuel + 1, a, b, n, t =>
      if needs_padding t then
        match add t (Padding.wg a b n) with
        | .ok t2 => padLoop fuel a b n t2
        | .error e => .error e
      else .ok t

/-- Factorial.trace(n), translated from the source: add the first step with
(0, n), add a FactorialStep with (1, 1, n), run the designer loop for
i in range(2, n) starting from a = 2, b = 1, then pad while needed. -/
def Factorial.trace (n : Nat) : Except TraceError (List Row) :=
  match add [] (FactorialFirstStep.wg 0 n) with
  | .error e => .error e
  | .ok t1 =>
      match add t1 (FactorialStep.wg 1 1 n) with
      | .error e => .error e
      | .ok t2 =>
          match factLoop (n - 2) 2 1 n t2 with
          | .error e => .error e
          | .ok (t3, a, b) => padLoop NUMBER_STEPS a b n t3

/-- Modelled from the spec: resolve the exposures declared in
Factorial.setup — expose(b, Last) and expose(n, Last) — by reading b and n
at row NUMBER_STEPS - 1 of the frozen trace. -/
def exposures (t : List Row) : Option (Nat × Nat) :=
  match t.get? (NUMBER_STEPS - 1) with
  | some r =>
      match r.b, r.n with
      | some bv, some nv => some (bv, nv)
      | _, _ => none
  | none => none

/-- Modelled from the spec: gen_witness(n) runs trace(n) and returns the
frozen trace together with the resolved exposure values. -/
def gen_witness (n : Nat) : Except TraceError (List Row × Option (Nat × Nat)) :=
  match Factorial.trace n with
  | .error e => .error e
  | .ok t => .ok (t, exposures t)

/-- Value of a signal on a row. -/
def Row.sigVal (r : Row) : Sig → Option Nat
  | .a => r.a
  | .b => r.b
  | .n => r.n
  | .c => r.c

/-- Modelled from the spec: evaluate a constraint expression against a
current row and a next row, in the field. -/
def evalE (cur nxt : Row) : Expr → Option Nat
  | .const k => some (F k)
  | .var s => cur.sigVal s
  | .next s => nxt.sigVal s
  | .add e1 e2 =>
      match evalE cur nxt e1, evalE cur nxt e2 with
      | some v1, some v2 => some (F (v1 + v2))
      | _, _ => none
  | .mul e1 e2 =>
      match evalE cur nxt e1, evalE cur nxt e2 with
      | some v1, some v2 => some (F (v1 * v2))
      | _, _ => none

/-- Modelled from the spec: a constraint eq(lhs, rhs) holds on a (current,
next) row pair when both sides evaluate and give the same field element. -/
def cHolds (cur nxt : Row) (c : Constraint) : Bool :=
  match evalE cur nxt c.lhs, evalE cur nxt c.rhs with
  | some v1, some v2 => v1 == v2
  | _, _ => false

/-- Checker: every row of the trace satisfies every row constraint of its
producing step type. -/
def checkRowConstraints (t : List Row) : Bool :=
  t.all fun r => (rowConstraints r.step).all (cHolds r r)

/-- Checker: every consecutive row pair (i, i+1) satisfies every transition
constraint of row i's producing step type, row i current and row i+1 next. -/
def checkTransConstraints (t : List Row) : Bool :=
  (List.range t.length).all fun i =>
    match t.get? i, t.get? (i + 1) with
    | some cur, some nxt => (transitionConstraints cur.step).all (cHolds cur nxt)
    | _, _ => true

/-- The rows of a trace produced by the Padding step type. -/
def paddingRows (t : List Row) : List Row :=
  t.filter fun r => r.step == .padding

/-- The designer rows of a trace: those not produced by Padding. -/
def designerRows (t : List Row) : List Row :=
  t.filter fun r => r.step != .padding

/-- Run a boolean check on the trace for input n; false when the trace
fails. -/
def onOk (n : Nat) (f : List Row → Bool) : Bool :=
  match Factorial.trace n with
  | .ok t => f t
  | .error _ => false

/-- Checker for the claim that the resolved exposures equal the b and n
values of the last designer (non-padded) row. -/
def exposuresMatchLastDesignerB (n : Nat) : Bool :=
  onOk n fun t =>
    match (designerRows t).getLast?, exposures t with
    | some r, some (bv, nv) => r.b == some bv && r.n == some nv
    | _, _ => false

/-- Checker for the amended claim: the exposed n equals the last designer
row's n, and the exposed b equals the last designer row's internal c
(the product of its a and b). -/
def exposuresMatchLastDesignerC (n : Nat) : Bool :=
  onOk n fun t =>
    match (designerRows t).getLast?, exposures t with
    | some r, some (bv, nv) => r.c == some bv && r.n == some nv
    | _, _ => false

/-- Checker: the exposed n equals the last designer row's n. -/
def exposedNMatchesLastDesigner (n : Nat) : Bool :=
  onOk n fun t =>
    match (designerRows t).getLast?, exposures t with
    | some r, some (_, nv) => r.n == some nv
    | _, _ => false

/-- Checker for the amended claim's b part: when padding occurs (n ≤ 9) the
exposed b equals the last designer row's internal c; when n = 10 the last
designer row is itself the exposed row and the exposed b equals its b. -/
def exposuresAmendedB (n : Nat) : Bool :=
  if n ≤ 9 then exposuresMatchLastDesignerC n else exposuresMatchLastDesignerB n

/-- Checker: the exposures are exactly (F ((n-1)!), F n). -/
def exposuresAreFactorial (n : Nat) : Bool :=
  onOk n fun t => exposures t == some (F (Nat.factorial (n - 1)), F n)

/- ------------------------------------------------------------------ -/
/- Helper lemmas (shared infrastructure for the claim theorems).       -/
/- ------------------------------------------------------------------ -/

/-- A successful boolean check on the trace yields the trace itself. -/
theorem onOk_eq_true {n : Nat} {f : List Row → Bool} (h : onOk n f = true) :
    ∃ t, Factorial.trace n = .ok t ∧ f t = true := by
  unfold onOk at h
  cases htr : Factorial.trace n with
  | ok t =>
      rw [htr] at h
      exact ⟨t, rfl, h⟩
  | error e =>
      rw [htr] at h
      exact absurd h (by simp)

/-- Unfolding of the row-constraint checker. -/
theorem checkRowConstraints_spec {t : List Row} (h : checkRowConstraints t = true) :
    ∀ r ∈ t, ∀ c ∈ rowConstraints r.step, cHolds r r c = true := by
  intro r hr c hc
  have h1 := List.all_eq_true.mp h r hr
  exact List.all_eq_true.mp h1 c hc

/-- Unfolding of the transition-constraint checker: an index-based view. -/
theorem checkTransConstraints_spec {t : List Row} (h : checkTransConstraints t = true)
    (i : Nat) (cur nxt : Row) (hcur : t.get? i = some cur) (hnxt : t.get? (i + 1) = some nxt) :
    ∀ c ∈ transitionConstraints cur.step, cHolds cur nxt c = true := by
  have hi : i < t.length := by
    by_contra hge
    rw [List.get?_eq_none.mpr (by omega)] at hcur
    exact Option.noConfusion hcur
  have h1 := List.all_eq_true.mp h i (List.mem_range.mpr hi)
  rw [hcur, hnxt] at h1
  exact fun c hc => List.all_eq_true.mp h1 c hc

/-- The FactorialStep row is always complete, whatever the arguments. -/
theorem completeRow_factorialStep (a b n : Nat) :
    completeRow (FactorialStep.wg a b n) = true := rfl

/-- Adding to a trace that already holds NUMBER_STEPS rows overflows. -/
theorem add_overflow {t : List Row} (r : Row) (h : NUMBER_STEPS ≤ t.length) :
    add t r = .error .TraceOverflow := by
  unfold add
  rw [if_pos h]

/-- Adding a complete row to a non-full trace appends it. -/
theorem add_ok {t : List Row} {r : Row} (hlen : t.length < NUMBER_STEPS)
    (hr : completeRow r = true) : add t r = .ok (t ++ [r]) := by
  unfold add
  rw [if_neg (by omega), if_pos hr]

/-- The designer loop overflows as soon as the requested rows would push the
trace past NUMBER_STEPS. -/
theorem factLoop_overflow :
    ∀ (k a b n : Nat) (t : List Row), t.length ≤ NUMBER_STEPS →
      NUMBER_STEPS < t.length + k →
      factLoop k a b n t = .error .TraceOverflow := by
  intro k
  induction k with
  | zero =>
      intro a b n t h1 h2
      omega
  | succ k ih =>
      intro a b n t h1 h2
      by_cases hfull : t.length = NUMBER_STEPS
      · unfold factLoop
        rw [add_overflow _ (by omega)]
      · have hlt : t.length < NUMBER_STEPS := by omega
        unfold factLoop
        rw [add_ok hlt (completeRow_factorialStep a b n)]
        exact ih (a + 1) (b * a) n (t ++ [FactorialStep.wg a b n])
          (by simp; omega) (by simp; omega)

/- ------------------------------------------------------------------ -/
/- Claim theorems.                                                     -/
/- ------------------------------------------------------------------ -/

/-- C1: for the factorial circuit run with n = 5, the trace's first five
rows carry the (a, b) pairs (0,1), (1,1), (2,1), (3,2), (4,6) in order, the
trace is padded with repetitions of the padding step's frozen state until
the row count reaches 10, and the resolved exposures are b = 24 and
n = 5. -/
theorem factorial_trace_five_scenario :
    ∃ t, Factorial.trace 5 = .ok t ∧
      (t.take 5).map (fun r => (r.a, r.b)) =
        [(some 0, some 1), (some 1, some 1), (some 2, some 1),
         (some 3, some 2), (some 4, some 6)] ∧
      t.length = NUMBER_STEPS ∧
      t.drop 5 = List.replicate 5 (Padding.wg 5 24 5) ∧
      exposures t = some (24, 5) := by
  refine ⟨_, rfl, ?_, ?_, ?_, ?_⟩ <;> rfl

/-- C2: for every n with 2 ≤ n ≤ 10, the trace succeeds and every row
satisfies every row constraint of its producing step type. -/
theorem factorial_row_constraints_hold (n : Nat) (h1 : 2 ≤ n) (h2 : n ≤ 10) :
    ∃ t, Factorial.trace n = .ok t ∧
      ∀ r ∈ t, ∀ c ∈ rowConstraints r.step, cHolds r r c = true := by
  have hb : onOk n checkRowConstraints = true := by interval_cases n <;> decide
  obtain ⟨t, ht, hc⟩ := onOk_eq_true hb
  exact ⟨t, ht, checkRowConstraints_spec hc⟩

/-- Witness for C2 at n = 5. -/
theorem factorial_row_constraints_hold_witness :
    2 ≤ 5 ∧ 5 ≤ 10 ∧
      (∃ t, Factorial.trace 5 = .ok t ∧
        ∀ r ∈ t, ∀ c ∈ rowConstraints r.step, cHolds r r c = true) :=
  ⟨by decide, by decide, factorial_row_constraints_hold 5 (by decide) (by decide)⟩

/-- C3: for every n with 2 ≤ n ≤ 10, the trace succeeds and every
consecutive row pair (i, i+1) satisfies every transition constraint of row
i's producing step type, with row i as current and row i+1 as next. -/
theorem factorial_transition_constraints_hold (n : Nat) (h1 : 2 ≤ n) (h2 : n ≤ 10) :
    ∃ t, Factorial.trace n = .ok t ∧
      ∀ (i : Nat) (cur nxt : Row), t.get? i = some cur → t.get? (i + 1) = some nxt →
        ∀ c ∈ transitionConstraints cur.step, cHolds cur nxt c = true := by
  have hb : onOk n checkTransConstraints = true := by interval_cases n <;> decide
  obtain ⟨t, ht, hc⟩ := onOk_eq_true hb
  exact ⟨t, ht, fun i cur nxt hcur hnxt => checkTransConstraints_spec hc i cur nxt hcur hnxt⟩

/-- Witness for C3 at n = 5. -/
theorem factorial_transition_constraints_hold_witness :
    2 ≤ 5 ∧ 5 ≤ 10 ∧
      (∃ t, Factorial.trace 5 = .ok t ∧
        ∀ (i : Nat) (cur nxt : Row), t.get? i = some cur → t.get? (i + 1) = some nxt →
          ∀ c ∈ transitionConstraints cur.step, cHolds cur nxt c = true) :=
  ⟨by decide, by decide, factorial_transition_constraints_hold 5 (by decide) (by decide)⟩

/-- C4: for every n with 0 ≤ n ≤ 10, the trace completes without error with
exactly NUMBER_STEPS = 10 rows; the designer adds max(2, n) rows and the
padding loop brings the count to exactly 10. -/
theorem factorial_trace_length (n : Nat) (h : n ≤ 10) :
    ∃ t, Factorial.trace n = .ok t ∧ t.length = NUMBER_STEPS ∧
      (designerRows t).length = max 2 n := by
  have hb : onOk n
      (fun t => (t.length == NUMBER_STEPS) && ((designerRows t).length == max 2 n)) = true := by
    interval_cases n <;> decide
  obtain ⟨t, ht, hc⟩ := onOk_eq_true hb
  simp only [Bool.and_eq_true, beq_iff_eq] at hc
  exact ⟨t, ht, hc.1, hc.2⟩

/-- Witness for C4 at n = 5. -/
theorem factorial_trace_length_witness :
    5 ≤ 10 ∧
      (∃ t, Factorial.trace 5 = .ok t ∧ t.length = NUMBER_STEPS ∧
        (designerRows t).length = max 2 5) :=
  ⟨by decide, factorial_trace_length 5 (by decide)⟩

/-- C5 counterexample: at n = 3 the last designer row has b = 1, but the
resolved exposures are b = 2 and n = 3 — the exposed b does not equal the
last designer row's b. -/
theorem exposures_last_designer_counterexample :
    exposuresMatchLastDesignerB 3 = false ∧
    (∃ t, Factorial.trace 3 = .ok t ∧
      (designerRows t).getLast?.map Row.b = some (some 1) ∧
      exposures t = some (2, 3)) := by
  refine ⟨by decide, _, rfl, ?_, ?_⟩ <;> rfl

/-- C5 amended: for every n with 2 ≤ n ≤ 10 the exposed n equals the last
designer row's n, and the exposed b equals the last designer row's internal
c (the product of its a and b) when padding occurs (n ≤ 9); when n = 10
there is no padding and the exposures equal the last designer row's own b
and n, since it is itself the exposed row. -/
theorem exposures_match_last_designer_amended (n : Nat) (h1 : 2 ≤ n) (h2 : n ≤ 10) :
    exposedNMatchesLastDesigner n = true ∧
    (exposuresAmendedB n) = true := by
  interval_cases n <;> exact ⟨by decide, by decide⟩

/-- Witness for the amended C5 at n = 5. -/
theorem exposures_match_last_designer_amended_witness :
    2 ≤ 5 ∧ 5 ≤ 10 ∧
      (exposedNMatchesLastDesigner 5 = true ∧ (exposuresAmendedB 5) = true) :=
  ⟨by decide, by decide, exposures_match_last_designer_amended 5 (by decide) (by decide)⟩

/-- C6: for every n with 2 ≤ n ≤ 10, the trace succeeds and all padding
rows carry identical values of the exposed forward signals b and n. -/
theorem padding_rows_constant (n : Nat) (h1 : 2 ≤ n) (h2 : n ≤ 10) :
    ∃ t, Factorial.trace n = .ok t ∧
      ∀ r1 ∈ paddingRows t, ∀ r2 ∈ paddingRows t, r1.b = r2.b ∧ r1.n = r2.n := by
  have hb : onOk n
      (fun t => (paddingRows t).all fun r1 =>
        (paddingRows t).all fun r2 => r1.b == r2.b && r1.n == r2.n) = true := by
    interval_cases n <;> decide
  obtain ⟨t, ht, hc⟩ := onOk_eq_true hb
  refine ⟨t, ht, fun r1 hr1 r2 hr2 => ?_⟩
  have h := List.all_eq_true.mp (List.all_eq_true.mp hc r1 hr1) r2 hr2
  simpa using h

/-- Witness for C6 at n = 5. -/
theorem padding_rows_constant_witness :
    2 ≤ 5 ∧ 5 ≤ 10 ∧
      (∃ t, Factorial.trace 5 = .ok t ∧
        ∀ r1 ∈ paddingRows t, ∀ r2 ∈ paddingRows t, r1.b = r2.b ∧ r1.n = r2.n) :=
  ⟨by decide, by decide, padding_rows_constant 5 (by decide) (by decide)⟩

/-- C7: for every n ≥ 11, Factorial.trace(n) fails with TraceOverflow: the
designer loop attempts to add an 11th row and the add call that would
exceed NUMBER_STEPS = 10 rows fails. -/
theorem trace_overflow (n : Nat) (h : 11 ≤ n) :
    Factorial.trace n = .error .TraceOverflow := by
  have hstart : Factorial.trace n =
      match factLoop (n - 2) 2 1 n [FactorialFirstStep.wg 0 n, FactorialStep.wg 1 1 n] with
      | .error e => .error e
      | .ok (t3, a, b) => padLoop NUMBER_STEPS a b n t3 := rfl
  rw [hstart, factLoop_overflow (n - 2) 2 1 n _ (by simp [NUMBER_STEPS])
    (by simp [NUMBER_STEPS]; omega)]

/-- Witness for C7 at n = 11. -/
theorem trace_overflow_witness :
    11 ≤ 11 ∧ Factorial.trace 11 = .error .TraceOverflow :=
  ⟨by decide, trace_overflow 11 (by decide)⟩

/-- C8: for every n with 0 ≤ n ≤ 10, the trace succeeds and every row the
step types produced assigned all three forward signals a, b, n and every
declared internal signal (c for the factorial steps, none for padding), so
the IncompleteRow failure never occurs for this circuit. -/
theorem factorial_rows_complete (n : Nat) (h : n ≤ 10) :
    ∃ t, Factorial.trace n = .ok t ∧ ∀ r ∈ t, completeRow r = true := by
  have hb : onOk n (fun t => t.all completeRow) = true := by interval_cases n <;> decide
  obtain ⟨t, ht, hc⟩ := onOk_eq_true hb
  exact ⟨t, ht, fun r hr => List.all_eq_true.mp hc r hr⟩

/-- Witness for C8 at n = 5. -/
theorem factorial_rows_complete_witness :
    5 ≤ 10 ∧ (∃ t, Factorial.trace 5 = .ok t ∧ ∀ r ∈ t, completeRow r = true) :=
  ⟨by decide, factorial_rows_complete 5 (by decide)⟩

/-- C9 counterexample: at n = 10 the trace succeeds but the exposures are
b = 40320 = 8! and n = 10, while the claim demands b = (10-1)! = 362880 —
the exposed b is not (n-1)! at n = 10. -/
theorem factorial_exposed_counterexample :
    exposuresAreFactorial 10 = false ∧
    (∃ t, Factorial.trace 10 = .ok t ∧ exposures t = some (40320, 10)) ∧
    F (Nat.factorial 9) = 362880 := by
  refine ⟨by decide, ⟨_, rfl, ?_⟩, ?_⟩ <;> rfl

/-- C9 amended: for every n with 2 ≤ n ≤ 9, the exposed b equals
(n-1)! reduced into the field and the exposed n equals n; in particular
gen_witness(9) resolves the exposures to b = 40320 = 8! and n = 9. -/
theorem factorial_exposed_values (n : Nat) (h1 : 2 ≤ n) (h2 : n ≤ 9) :
    (∃ t, Factorial.trace n = .ok t ∧
      exposures t = some (F (Nat.factorial (n - 1)), F n)) ∧
    (∃ t, gen_witness 9 = .ok (t, some (40320, 9))) := by
  constructor
  · have hb : exposuresAreFactorial n = true := by interval_cases n <;> decide
    unfold exposuresAreFactorial at hb
    obtain ⟨t, ht, hc⟩ := onOk_eq_true hb
    exact ⟨t, ht, by simpa using hc⟩
  · exact ⟨_, rfl⟩

/-- Witness for the amended C9 at n = 9. -/
theorem factorial_exposed_values_witness :
    2 ≤ 9 ∧ 9 ≤ 9 ∧
      ((∃ t, Factorial.trace 9 = .ok t ∧
        exposures t = some (F (Nat.factorial 8), F 9)) ∧
      (∃ t, gen_witness 9 = .ok (t, some (40320, 9)))) :=
  ⟨by decide, by decide, factorial_exposed_values 9 (by decide) (by decide)⟩

/-- C10: FactorialStep's transition constraints are exactly c == b.next and
n == n.next — no constraint relates a to a.next — and there is a pair of
FactorialStep rows satisfying all of FactorialStep's row and transition
constraints whose next-row a is not the current-row a plus one. -/
theorem factorial_step_no_increment_constraint :
    transitionConstraints .factorial_step = [⟨.var .c, .next .b⟩, ⟨.var .n, .next .n⟩] ∧
    (∃ cur nxt : Row, cur.step = .factorial_step ∧ nxt.step = .factorial_step ∧
      (∀ c ∈ rowConstraints cur.step, cHolds cur cur c = true) ∧
      (∀ c ∈ rowConstraints nxt.step, cHolds nxt nxt c = true) ∧
      (∀ c ∈ transitionConstraints cur.step, cHolds cur nxt c = true) ∧
      cur.a = some 2 ∧ nxt.a = some 5 ∧
      nxt.a ≠ (cur.a.map fun v => F (v + 1))) := by
  refine ⟨rfl, ⟨FactorialStep.wg 2 3 7, FactorialStep.wg 5 6 7,
    rfl, rfl, ?_, ?_, ?_, ?_, ?_, ?_⟩⟩ <;> decide

end Chiquito
